import Mathlib

/-!
Verification development for the adaptive-subdivision crime/amenity fetch
engine (`ass01/scripts/utils_police.py` and the containment filter of
`ass01/scripts/utils_osm.py`).

Geometry operations performed by the external shapely library are abstracted
as an explicit operation record (`GeomOps`), the Python float formatting of
coordinates as a rendering function `fmt`, and the HTTP session as a response
oracle `net : polyStr → month → NetResp`.  The file-system cache becomes an
association list keyed by `(label, month)`, and every network attempt is
recorded in a ghost call log (with the recursion depth of the frame that
issued it) so that call-count properties can be stated.
-/

namespace BikeCrime

/-- Stored coordinate pairs are `(lng, lat)`, as in shapely geometries. -/
abbrev Coord := ℚ × ℚ

/-- An axis-aligned box, the result of shapely's `box(minx, miny, maxx, maxy)`. -/
structure Box where
  minx : ℚ
  miny : ℚ
  maxx : ℚ
  maxy : ℚ
deriving DecidableEq, Repr

/-- The shapely operations used by the scripts, abstracted over the geometry
type `G`: `geom.bounds`, `geom.intersection(box)`, `geom.is_empty`,
`list(geom.exterior.coords)` (a closed ring), `geom.simplify(tolerance,
preserve_topology=True)` and `geom.contains(Point(lng, lat))`. -/
structure GeomOps (G : Type) where
  bounds : G → ℚ × ℚ × ℚ × ℚ
  interBox : G → Box → G
  isEmpty : G → Bool
  exteriorCoords : G → List Coord
  simplify : G → ℚ → G
  containsPt : G → Coord → Bool

/-- `MAX_POLY_POINTS = 25` from `utils_police.py`. -/
def MAX_POLY_POINTS : ℕ := 25

/-- `MAX_GRID_DEPTH = 2` from `utils_police.py`. -/
def MAX_GRID_DEPTH : ℕ := 2

/-- The `for _ in range(30)` retry loop of `_simplify_to_n_points`: simplify
the original geometry at the current tolerance; stop as soon as the ring is
within budget, otherwise double the tolerance.  `simplified` carries the most
recent attempt, returned when the fuel runs out. -/
def simplifyLoop {G : Type} (ops : GeomOps G) (geom : G) (maxPoints : ℕ) :
    ℕ → ℚ → G → G
  | 0, _, simplified => simplified
  | fuel + 1, tolerance, _ =>
    let simplified := ops.simplify geom tolerance
    if (ops.exteriorCoords simplified).length ≤ maxPoints then simplified
    else simplifyLoop ops geom maxPoints fuel (tolerance * 2) simplified

/-- `_simplify_to_n_points(geom, max_points)`: return the exterior ring,
minus the duplicated closing vertex, simplified until it is within budget
(or until the 30 tolerance doublings are exhausted). -/
def simplifyToNPoints {G : Type} (ops : GeomOps G) (geom : G)
    (maxPoints : ℕ) : List Coord :=
  let coords := ops.exteriorCoords geom
  if coords.length ≤ maxPoints then coords.dropLast
  else
    (ops.exteriorCoords (simplifyLoop ops geom maxPoints 30 (1 / 10000) geom)).dropLast

/-- `_coords_to_api_string(coords)`: `":".join(f"{lat:.6f},{lng:.6f}" for
lng, lat in coords)`.  The numeric rendering of one coordinate is abstracted
as `fmt`; the pair inversion (stored `(lng, lat)` emitted as `lat,lng`) and
the `:` delimiter are explicit. -/
def coordsToApiString (fmt : ℚ → String) (coords : List Coord) : String :=
  String.intercalate ":" (coords.map fun p => fmt p.2 ++ "," ++ fmt p.1)

/-- The query string a fetch builds for a geometry:
`_coords_to_api_string(_simplify_to_n_points(geom))`. -/
def queryPolyStr {G : Type} (ops : GeomOps G) (fmt : ℚ → String) (geom : G) :
    String :=
  coordsToApiString fmt (simplifyToNPoints ops geom MAX_POLY_POINTS)

/-- One raw crime object from the API.  `id` models `c.get("id")` (`none`
when the key is absent or null), `streetId` models
`(c.get("location", {}) or {}).get("street", {}).get("id", ...)`, `month`
models `c.get("month", ...)`; `tag` stands for the rest of the payload so
that two records with equal keys can still differ. -/
structure Crime where
  id : Option String
  streetId : Option String
  month : Option String
  tag : ℕ
deriving DecidableEq, Repr

/-- `c.get("id") or (c.get("location", {}) or {}).get("street", {}).get("id", "")`:
a present, non-empty `id` wins; otherwise (absent or falsy `""`) fall back to
the street id with default `""`. -/
def crimeUid (c : Crime) : String :=
  match c.id with
  | some s => if s = "" then c.streetId.getD "" else s
  | none => c.streetId.getD ""

/-- `key = (uid, c.get("month", ""))` from the merge loop. -/
def crimeKey (c : Crime) : String × String :=
  (crimeUid c, c.month.getD "")

/-- One iteration of the merge loop of `_fetch_with_subdivision`:
`if key not in seen_ids: seen_ids.add(key); all_crimes.append(c)`. -/
def dedupStep (p : List Crime × List (String × String)) (c : Crime) :
    List Crime × List (String × String) :=
  let key := crimeKey c
  if key ∈ p.2 then p else (p.1 ++ [c], p.2 ++ [key])

/-- Outcome of one `session.get` attempt: a raised `requests.RequestException`,
or an HTTP status code with a (decoded) JSON body. -/
inductive NetResp where
  | reqError
  | status (code : ℕ) (body : List Crime)
deriving DecidableEq, Repr

/-- Ghost record of one network attempt: the depth of the recursion frame
that issued it, the request parameters, and the response obtained. -/
structure CallEntry where
  depth : ℕ
  poly : String
  month : String
  resp : NetResp
deriving DecidableEq, Repr

/-- The mutable world of one run: the JSON file cache (keyed by
`(label, month)`, newest entry first) and the ghost log of network calls. -/
structure FetchState where
  cache : List ((String × String) × List Crime)
  calls : List CallEntry
deriving DecidableEq, Repr

/-- `cache_path.exists()` / `json.load`: look up a key in the cache. -/
def cacheGet (cache : List ((String × String) × List Crime))
    (k : String × String) : Option (List Crime) :=
  match cache with
  | [] => none
  | e :: rest => if e.1 = k then some e.2 else cacheGet rest k

/-- `_fetch_single_poly(poly_str, month, cache_path, session)`:
cache hit is returned directly; a request exception yields `[]`; HTTP 503
yields `None` (the subdivide signal); any other non-200 status yields `[]`;
a 200 response is written to the cache and returned.  `depth` is ghost data
recorded in the call log. -/
def fetchSinglePoly (net : String → String → NetResp)
    (polyStr month : String) (key : String × String) (depth : ℕ)
    (st : FetchState) : Option (List Crime) × FetchState :=
  match cacheGet st.cache key with
  | some cached => (some cached, st)
  | none =>
    match net polyStr month with
    | NetResp.reqError =>
      (some [], { st with calls := st.calls ++
        [⟨depth, polyStr, month, NetResp.reqError⟩] })
    | NetResp.status code body =>
      if code = 503 then
        (none, { st with calls := st.calls ++
          [⟨depth, polyStr, month, NetResp.status code body⟩] })
      else if code ≠ 200 then
        (some [], { st with calls := st.calls ++
          [⟨depth, polyStr, month, NetResp.status code body⟩] })
      else
        (some body, { cache := (key, body) :: st.cache,
                      calls := st.calls ++
          [⟨depth, polyStr, month, NetResp.status code body⟩] })

/-- `label = cell_id if cell_id else "full"`. -/
def fetchLabel (cellId : String) : String :=
  if cellId = "" then "full" else cellId

/-- `sub_id = f"{label}_{suffix}" if cell_id else suffix` (note that when
`cell_id` is truthy, `label = cell_id`). -/
def subCellId (cellId sfx : String) : String :=
  if cellId = "" then sfx else cellId ++ "_" ++ sfx

/-- Fold one child's crime list into the accumulated
`(all_crimes, seen_ids, state)` triple. -/
def childAccum (a : List Crime × List (String × String) × FetchState)
    (r : List Crime × FetchState) :
    List Crime × List (String × String) × FetchState :=
  let p := r.1.foldl dedupStep (a.1, a.2.1)
  (p.1, p.2, r.2)

/-- The body of `_fetch_with_subdivision(geom, month, cache_dir, session,
depth, cell_id)`, structurally recursive on a ghost budget
`gas = MAX_GRID_DEPTH - depth` (so that the kernel can evaluate it).  The
recursion is guarded by the source's own `depth >= MAX_GRID_DEPTH` test;
whenever `gas = MAX_GRID_DEPTH - depth`, the `gas = 0` fallback is
unreachable because it coincides with that guard.  The
`for quad, suffix in zip(quadrants, suffixes)` loop is unrolled into its
four iterations (NW, NE, SW, SE), each of which clips the geometry against
the quadrant box, skips it when the intersection is empty, and otherwise
recurses at `depth+1` with the extended cell id and folds the child's crimes
through the dedup accumulator.  The merged list is finally written to the
cache under the parent's `(label, month)` key. -/
def fetchSubdivAux {G : Type} (ops : GeomOps G) (fmt : ℚ → String)
    (net : String → String → NetResp) (month : String) :
    ℕ → ℕ → String → G → FetchState → List Crime × FetchState
  | gas, depth, cellId, geom, st =>
    match fetchSinglePoly net (queryPolyStr ops fmt geom) month
        (fetchLabel cellId, month) depth st with
    | (some result, st1) => (result, st1)
    | (none, st1) =>
      if MAX_GRID_DEPTH ≤ depth then ([], st1)
      else
        match gas with
        | 0 => ([], st1)
        | gas + 1 =>
          let b := ops.bounds geom
          let minx := b.1
          let miny := b.2.1
          let maxx := b.2.2.1
          let maxy := b.2.2.2
          let midx := (minx + maxx) / 2
          let midy := (miny + maxy) / 2
          let a0 : List Crime × List (String × String) × FetchState :=
            ([], [], st1)
          let a1 :=
            let clipped := ops.interBox geom (Box.mk minx midy midx maxy)
            if ops.isEmpty clipped then a0
            else childAccum a0 (fetchSubdivAux ops fmt net month gas
              (depth + 1) (subCellId cellId "NW") clipped a0.2.2)
          let a2 :=
            let clipped := ops.interBox geom (Box.mk midx midy maxx maxy)
            if ops.isEmpty clipped then a1
            else childAccum a1 (fetchSubdivAux ops fmt net month gas
              (depth + 1) (subCellId cellId "NE") clipped a1.2.2)
          let a3 :=
            let clipped := ops.interBox geom (Box.mk minx miny midx midy)
            if ops.isEmpty clipped then a2
            else childAccum a2 (fetchSubdivAux ops fmt net month gas
              (depth + 1) (subCellId cellId "SW") clipped a2.2.2)
          let a4 :=
            let clipped := ops.interBox geom (Box.mk midx miny maxx midy)
            if ops.isEmpty clipped then a3
            else childAccum a3 (fetchSubdivAux ops fmt net month gas
              (depth + 1) (subCellId cellId "SE") clipped a3.2.2)
          (a4.1, { a4.2.2 with cache :=
            ((fetchLabel cellId, month), a4.1) :: a4.2.2.cache })

/-- `_fetch_with_subdivision` itself: the recursion of `fetchSubdivAux`
started with the exact budget `MAX_GRID_DEPTH - depth`. -/
def fetchWithSubdivision {G : Type} (ops : GeomOps G) (fmt : ℚ → String)
    (net : String → String → NetResp) (geom : G) (month : String)
    (depth : ℕ) (cellId : String) (st : FetchState) :
    List Crime × FetchState :=
  fetchSubdivAux ops fmt net month (MAX_GRID_DEPTH - depth) depth cellId geom st

/-- One iteration of the quadrant loop, at a fixed child budget `gas`:
clip the region against the quadrant box, skip it when the intersection is
empty, otherwise recurse and fold the child's crimes into the accumulator. -/
def quadStep {G : Type} (ops : GeomOps G) (fmt : ℚ → String)
    (net : String → String → NetResp) (month : String) (gas depth : ℕ)
    (cellId : String) (geom : G)
    (a : List Crime × List (String × String) × FetchState)
    (qs : Box × String) :
    List Crime × List (String × String) × FetchState :=
  let clipped := ops.interBox geom qs.1
  if ops.isEmpty clipped then a
  else childAccum a (fetchSubdivAux ops fmt net month gas (depth + 1)
    (subCellId cellId qs.2) clipped a.2.2)

/-- `fetch_borough_month`: the public top-level entry point, a call at
`depth = 0` with empty `cell_id`. -/
def fetchBoroughMonth {G : Type} (ops : GeomOps G) (fmt : ℚ → String)
    (net : String → String → NetResp) (geom : G) (month : String)
    (st : FetchState) : List Crime × FetchState :=
  fetchWithSubdivision ops fmt net geom month 0 "" st

/-! ### Specification-side descriptions used to state the claims -/

/-- The four quadrant boxes obtained by bisecting a bounding box on both
axes, paired with their NW/NE/SW/SE suffixes, in the order the loop visits
them. -/
def quadrantBoxes (b : ℚ × ℚ × ℚ × ℚ) : List (Box × String) :=
  let minx := b.1
  let miny := b.2.1
  let maxx := b.2.2.1
  let maxy := b.2.2.2
  let midx := (minx + maxx) / 2
  let midy := (miny + maxy) / 2
  [(Box.mk minx midy midx maxy, "NW"),
   (Box.mk midx midy maxx maxy, "NE"),
   (Box.mk minx miny midx midy, "SW"),
   (Box.mk midx miny maxx midy, "SE")]

/-- Claim-side description of the subdivision step: fold over the quadrant
boxes, clipping each against the region, skipping empty intersections,
recursing into each surviving piece at `depth+1` with the extended cell id,
merging the child results through the dedup accumulator, and finally caching
the merged list under the parent's `(label, month)` key. -/
def subdivideMerge {G : Type} (ops : GeomOps G) (fmt : ℚ → String)
    (net : String → String → NetResp) (geom : G) (month : String)
    (depth : ℕ) (cellId : String) (st : FetchState) :
    List Crime × FetchState :=
  let label := fetchLabel cellId
  let a := (quadrantBoxes (ops.bounds geom)).foldl
    (fun a qs =>
      let clipped := ops.interBox geom qs.1
      if ops.isEmpty clipped then a
      else childAccum a (fetchWithSubdivision ops fmt net clipped month
        (depth + 1) (subCellId cellId qs.2) a.2.2))
    (([], [], st) : List Crime × List (String × String) × FetchState)
  (a.1, { a.2.2 with cache := ((label, month), a.1) :: a.2.2.cache })

/-- The merge of a list of sibling result lists, exactly as performed by the
nested loops of `_fetch_with_subdivision` (outer loop over children, inner
dedup loop over each child's crimes). -/
def mergeChildLists (children : List (List Crime)) : List Crime :=
  (children.foldl (fun p cs => cs.foldl dedupStep p) ([], [])).1

/-- Declarative first-seen deduplication: keep a record iff its key is not
in `seen` and has not occurred earlier in the list. -/
def dedupFrom (seen : List (String × String)) : List Crime → List Crime
  | [] => []
  | c :: cs =>
    if crimeKey c ∈ seen then dedupFrom seen cs
    else c :: dedupFrom (crimeKey c :: seen) cs

/-- A non-capacity failure of one query attempt: a raised request exception,
or a status that is neither 503 (capacity exceeded) nor 200 (success). -/
def isOtherFailure : NetResp → Bool
  | NetResp.reqError => true
  | NetResp.status code _ => decide (code ≠ 503) && decide (code ≠ 200)

/-! ### Overpass containment filter (`utils_osm.py`) -/

/-- One element of an Overpass response, as read by `_element_to_point`:
`elem.get("type")`, `elem.get("lat")`/`elem.get("lon")` for nodes, and
`elem.get("center", {}).get("lat"/"lon")` for ways. -/
structure OsmElement where
  etype : Option String
  lat : Option ℚ
  lon : Option ℚ
  centerLat : Option ℚ
  centerLon : Option ℚ
deriving DecidableEq, Repr

/-- `_element_to_point(elem)`: a node uses its own coordinates, a way the
`center` coordinates; anything else, or missing coordinates, yields `None`.
The resulting point is `Point(lon, lat)`. -/
def elementToPoint (e : OsmElement) : Option Coord :=
  match e.etype with
  | none => none
  | some t =>
    if t = "node" then
      match e.lat, e.lon with
      | some la, some lo => some (lo, la)
      | _, _ => none
    else if t = "way" then
      match e.centerLat, e.centerLon with
      | some la, some lo => some (lo, la)
      | _, _ => none
    else none

/-- The counting loop of `fetch_borough_parking`: count elements whose
representative point exists and lies strictly inside the borough polygon
(`borough_geom.contains(pt)`). -/
def countParkingElements {G : Type} (ops : GeomOps G) (geom : G)
    (elements : List OsmElement) : ℕ :=
  elements.foldl
    (fun count elem =>
      match elementToPoint elem with
      | some pt => if ops.containsPt geom pt then count + 1 else count
      | none => count)
    0

/-! ### Concrete geometry instances used for witnesses -/

/-- Rectangle geometry: a faithful, executable instance of the shapely
interface on axis-aligned boxes (a degenerate box counts as empty). -/
def rectOps : GeomOps Box where
  bounds b := (b.minx, b.miny, b.maxx, b.maxy)
  interBox b q :=
    Box.mk (max b.minx q.minx) (max b.miny q.miny)
      (min b.maxx q.maxx) (min b.maxy q.maxy)
  isEmpty b := decide (b.maxx ≤ b.minx) || decide (b.maxy ≤ b.miny)
  exteriorCoords b :=
    [(b.minx, b.miny), (b.maxx, b.miny), (b.maxx, b.maxy),
     (b.minx, b.maxy), (b.minx, b.miny)]
  simplify b _ := b
  containsPt b p :=
    decide (b.minx < p.1) && decide (p.1 < b.maxx) &&
    decide (b.miny < p.2) && decide (p.2 < b.maxy)

/-- Geometry instance whose value is just its exterior ring and whose
`simplify` does not reduce complexity at all (a worst case the wire protocol
permits: topology-preserving simplification need not meet the budget). -/
def ringOps : GeomOps (List Coord) where
  bounds _ := (0, 0, 0, 0)
  interBox g _ := g
  isEmpty g := decide (g = [])
  exteriorCoords g := g
  simplify g _ := g
  containsPt _ _ := false

/-- A sample crime record with a distinct id per index. -/
def demoC (i : ℕ) : Crime :=
  ⟨some (toString i), none, some "2025-01", i⟩

/-- A crime record with no id and no street id (key collapses to `("", "")`
when `month` is also absent). -/
def anonC (i : ℕ) : Crime :=
  ⟨none, none, none, i⟩

/-- Response oracle: every query answers HTTP 200 with an empty body. -/
def netOk : String → String → NetResp := fun _ _ => NetResp.status 200 []

/-- Response oracle: every query answers HTTP 500 (a non-capacity failure). -/
def netFail : String → String → NetResp := fun _ _ => NetResp.status 500 []

/-- Response oracle: every query answers HTTP 503 (capacity exceeded). -/
def netBusy : String → String → NetResp := fun _ _ => NetResp.status 503 []

/-- Trivial coordinate rendering used in concrete runs. -/
def fmt0 : ℚ → String := fun _ => "x"

/-- The empty world state. -/
def st0 : FetchState := ⟨[], []⟩

/-- A state whose cache holds one unrelated entry. -/
def stSeed : FetchState := ⟨[(("seed", "2025-01"), [demoC 0])], []⟩

/-- A state whose top-level cache entry carries a duplicated record. -/
def stDup : FetchState := ⟨[(("full", "2025-01"), [anonC 0, anonC 0])], []⟩

/-- A 27-vertex ring: more vertices than `MAX_POLY_POINTS` allows. -/
def ring27 : List Coord := (List.range 27).map (fun i => ((i : ℚ), (0 : ℚ)))

/-- A 4-vertex ring, comfortably within the vertex budget. -/
def ring4 : List Coord := [(0, 0), (1, 0), (1, 1), (0, 1)]

/-! ### Case equations for the fetch functions -/

theorem fetchSinglePoly_hit {net p m key d st xs}
    (h : cacheGet st.cache key = some xs) :
    fetchSinglePoly net p m key d st = (some xs, st) := by
  unfold fetchSinglePoly
  rw [h]

theorem fetchSinglePoly_reqError {net : String → String → NetResp}
    {p m : String} {key d st}
    (hmiss : cacheGet st.cache key = none)
    (hresp : net p m = NetResp.reqError) :
    fetchSinglePoly net p m key d st =
      (some [], { st with calls := st.calls ++ [⟨d, p, m, NetResp.reqError⟩] }) := by
  unfold fetchSinglePoly
  rw [hmiss, hresp]

theorem fetchSinglePoly_status {net : String → String → NetResp}
    {p m : String} {key d st code body}
    (hmiss : cacheGet st.cache key = none)
    (hresp : net p m = NetResp.status code body) :
    fetchSinglePoly net p m key d st =
      (if code = 503 then
        (none, { st with calls := st.calls ++
          [⟨d, p, m, NetResp.status code body⟩] })
      else if code ≠ 200 then
        (some [], { st with calls := st.calls ++
          [⟨d, p, m, NetResp.status code body⟩] })
      else
        (some body, { cache := (key, body) :: st.cache,
                      calls := st.calls ++
          [⟨d, p, m, NetResp.status code body⟩] })) := by
  unfold fetchSinglePoly
  rw [hmiss, hresp]

theorem fetchSinglePoly_503 {net : String → String → NetResp}
    {p m : String} {key d st body}
    (hmiss : cacheGet st.cache key = none)
    (hresp : net p m = NetResp.status 503 body) :
    fetchSinglePoly net p m key d st =
      (none, { st with calls := st.calls ++
        [⟨d, p, m, NetResp.status 503 body⟩] }) := by
  unfold fetchSinglePoly
  rw [hmiss, hresp]
  rfl

theorem subdivAux_hit {G : Type} {ops : GeomOps G} {fmt net month gas depth
    cellId geom st xs}
    (h : cacheGet st.cache (fetchLabel cellId, month) = some xs) :
    fetchSubdivAux ops fmt net month gas depth cellId geom st = (xs, st) := by
  unfold fetchSubdivAux
  rw [fetchSinglePoly_hit h]

theorem subdivAux_reqError {G : Type} {ops : GeomOps G} {fmt : ℚ → String}
    {net : String → String → NetResp} {month : String} {gas depth cellId geom st}
    (hmiss : cacheGet st.cache (fetchLabel cellId, month) = none)
    (hresp : net (queryPolyStr ops fmt geom) month = NetResp.reqError) :
    fetchSubdivAux ops fmt net month gas depth cellId geom st =
      ([], { st with calls := st.calls ++
        [⟨depth, queryPolyStr ops fmt geom, month, NetResp.reqError⟩] }) := by
  unfold fetchSubdivAux
  rw [fetchSinglePoly_reqError hmiss hresp]

theorem subdivAux_otherStatus {G : Type} {ops : GeomOps G} {fmt : ℚ → String}
    {net : String → String → NetResp} {month : String}
    {gas depth cellId geom st code body}
    (hmiss : cacheGet st.cache (fetchLabel cellId, month) = none)
    (hresp : net (queryPolyStr ops fmt geom) month = NetResp.status code body)
    (h503 : code ≠ 503) (h200 : code ≠ 200) :
    fetchSubdivAux ops fmt net month gas depth cellId geom st =
      ([], { st with calls := st.calls ++
        [⟨depth, queryPolyStr ops fmt geom, month, NetResp.status code body⟩] }) := by
  unfold fetchSubdivAux
  rw [fetchSinglePoly_status hmiss hresp]
  simp only [if_neg h503, if_pos h200]

theorem subdivAux_success {G : Type} {ops : GeomOps G} {fmt : ℚ → String}
    {net : String → String → NetResp} {month : String}
    {gas depth cellId geom st body}
    (hmiss : cacheGet st.cache (fetchLabel cellId, month) = none)
    (hresp : net (queryPolyStr ops fmt geom) month = NetResp.status 200 body) :
    fetchSubdivAux ops fmt net month gas depth cellId geom st =
      (body, { cache := ((fetchLabel cellId, month), body) :: st.cache,
               calls := st.calls ++
        [⟨depth, queryPolyStr ops fmt geom, month, NetResp.status 200 body⟩] }) := by
  unfold fetchSubdivAux
  rw [fetchSinglePoly_status hmiss hresp]
  norm_num

theorem subdivAux_503_depthLimit {G : Type} {ops : GeomOps G} {fmt : ℚ → String}
    {net : String → String → NetResp} {month : String}
    {gas depth cellId geom st body}
    (hmiss : cacheGet st.cache (fetchLabel cellId, month) = none)
    (hresp : net (queryPolyStr ops fmt geom) month = NetResp.status 503 body)
    (hdepth : MAX_GRID_DEPTH ≤ depth) :
    fetchSubdivAux ops fmt net month gas depth cellId geom st =
      ([], { st with calls := st.calls ++
        [⟨depth, queryPolyStr ops fmt geom, month, NetResp.status 503 body⟩] }) := by
  unfold fetchSubdivAux
  rw [fetchSinglePoly_503 hmiss hresp]
  simp [hdepth]

theorem subdivAux_503_gas0 {G : Type} {ops : GeomOps G} {fmt : ℚ → String}
    {net : String → String → NetResp} {month : String}
    {depth cellId geom st body}
    (hmiss : cacheGet st.cache (fetchLabel cellId, month) = none)
    (hresp : net (queryPolyStr ops fmt geom) month = NetResp.status 503 body) :
    fetchSubdivAux ops fmt net month 0 depth cellId geom st =
      ([], { st with calls := st.calls ++
        [⟨depth, queryPolyStr ops fmt geom, month, NetResp.status 503 body⟩] }) := by
  unfold fetchSubdivAux
  rw [fetchSinglePoly_503 hmiss hresp]
  simp

theorem subdivAux_503_subdivide {G : Type} {ops : GeomOps G} {fmt : ℚ → String}
    {net : String → String → NetResp} {month : String}
    {gas depth cellId geom st body}
    (hmiss : cacheGet st.cache (fetchLabel cellId, month) = none)
    (hresp : net (queryPolyStr ops fmt geom) month = NetResp.status 503 body)
    (hdepth : ¬ MAX_GRID_DEPTH ≤ depth) :
    fetchSubdivAux ops fmt net month (gas + 1) depth cellId geom st =
      (let st1 : FetchState := { st with calls := st.calls ++
        [⟨depth, queryPolyStr ops fmt geom, month, NetResp.status 503 body⟩] }
      let a := (quadrantBoxes (ops.bounds geom)).foldl
        (quadStep ops fmt net month gas depth cellId geom) ([], [], st1)
      (a.1, { a.2.2 with cache :=
        ((fetchLabel cellId, month), a.1) :: a.2.2.cache })) := by
  conv_lhs => unfold fetchSubdivAux
  rw [fetchSinglePoly_503 hmiss hresp]
  simp only [if_neg hdepth, quadrantBoxes, quadStep, List.foldl, childAccum]

/-! ### Cache facts -/

theorem cacheGet_cons {e : (String × String) × List Crime} {c k} :
    cacheGet (e :: c) k = if e.1 = k then some e.2 else cacheGet c k := rfl

/-- After any fetch, the parent's own `(label, month)` key either holds
exactly the returned payload, or the fetch failed (empty result) and the key
is still absent. -/
theorem subdivAux_selfCache {G : Type} (ops : GeomOps G) (fmt : ℚ → String)
    (net : String → String → NetResp) (month : String) (gas depth : ℕ)
    (cellId : String) (geom : G) (st : FetchState) :
    cacheGet (fetchSubdivAux ops fmt net month gas depth cellId geom st).2.cache
        (fetchLabel cellId, month) =
      some (fetchSubdivAux ops fmt net month gas depth cellId geom st).1 ∨
    ((fetchSubdivAux ops fmt net month gas depth cellId geom st).1 = [] ∧
     cacheGet (fetchSubdivAux ops fmt net month gas depth cellId geom st).2.cache
        (fetchLabel cellId, month) = none) := by
  cases hc : cacheGet st.cache (fetchLabel cellId, month) with
  | some xs =>
    rw [subdivAux_hit hc]
    exact Or.inl hc
  | none =>
    cases hr : net (queryPolyStr ops fmt geom) month with
    | reqError =>
      rw [subdivAux_reqError hc hr]
      exact Or.inr ⟨rfl, hc⟩
    | status code body =>
      rcases eq_or_ne code 503 with h503 | h503
      · subst h503
        by_cases hd : MAX_GRID_DEPTH ≤ depth
        · rw [subdivAux_503_depthLimit hc hr hd]
          exact Or.inr ⟨rfl, hc⟩
        · cases gas with
          | zero =>
            rw [subdivAux_503_gas0 hc hr]
            exact Or.inr ⟨rfl, hc⟩
          | succ g =>
            rw [subdivAux_503_subdivide hc hr hd]
            left
            simp [cacheGet_cons]
      · by_cases h200 : code = 200
        · subst h200
          rw [subdivAux_success hc hr]
          left
          simp [cacheGet_cons]
        · rw [subdivAux_otherStatus hc hr h503 h200]
          exact Or.inr ⟨rfl, hc⟩

/-- Folding the quadrant loop preserves any already-present cache entry,
provided each child fetch does. -/
theorem foldl_quadStep_cachePres {G : Type} {ops : GeomOps G}
    {fmt : ℚ → String} {net : String → String → NetResp} {month : String}
    {gas depth : ℕ} {cellId : String} {geom : G}
    (IH : ∀ cid g st k v, cacheGet st.cache k = some v →
      cacheGet (fetchSubdivAux ops fmt net month gas (depth + 1)
        cid g st).2.cache k = some v) :
    ∀ (l : List (Box × String))
      (a : List Crime × List (String × String) × FetchState) (k v),
      cacheGet a.2.2.cache k = some v →
      cacheGet ((l.foldl (quadStep ops fmt net month gas depth cellId geom)
        a).2.2.cache) k = some v := by
  intro l
  induction l with
  | nil => intro a k v h; exact h
  | cons q qs ihl =>
    intro a k v h
    rw [List.foldl_cons]
    apply ihl
    dsimp only [quadStep]
    split
    · exact h
    · dsimp only [childAccum]
      exact IH _ _ _ k v h

/-- A fetch never disturbs a cache entry that existed when it started:
entries are written only under keys that were absent at write time. -/
theorem subdivAux_cachePreserve {G : Type} (ops : GeomOps G)
    (fmt : ℚ → String) (net : String → String → NetResp) (month : String) :
    ∀ (gas depth : ℕ) (cellId : String) (geom : G) (st : FetchState)
      (k : String × String) (v : List Crime),
      cacheGet st.cache k = some v →
      cacheGet (fetchSubdivAux ops fmt net month gas depth
        cellId geom st).2.cache k = some v := by
  intro gas
  induction gas with
  | zero =>
    intro depth cellId geom st k v h
    cases hc : cacheGet st.cache (fetchLabel cellId, month) with
    | some xs => rw [subdivAux_hit hc]; exact h
    | none =>
      cases hr : net (queryPolyStr ops fmt geom) month with
      | reqError => rw [subdivAux_reqError hc hr]; exact h
      | status code body =>
        rcases eq_or_ne code 503 with h503 | h503
        · subst h503
          by_cases hd : MAX_GRID_DEPTH ≤ depth
          · rw [subdivAux_503_depthLimit hc hr hd]; exact h
          · rw [subdivAux_503_gas0 hc hr]; exact h
        · by_cases h200 : code = 200
          · subst h200
            rw [subdivAux_success hc hr]
            rw [cacheGet_cons]
            split
            · rename_i heq
              have heq2 : (fetchLabel cellId, month) = k := heq
              rw [← heq2, hc] at h
              simp at h
            · exact h
          · rw [subdivAux_otherStatus hc hr h503 h200]; exact h
  | succ g ih =>
    intro depth cellId geom st k v h
    cases hc : cacheGet st.cache (fetchLabel cellId, month) with
    | some xs => rw [subdivAux_hit hc]; exact h
    | none =>
      cases hr : net (queryPolyStr ops fmt geom) month with
      | reqError => rw [subdivAux_reqError hc hr]; exact h
      | status code body =>
        rcases eq_or_ne code 503 with h503 | h503
        · subst h503
          by_cases hd : MAX_GRID_DEPTH ≤ depth
          · rw [subdivAux_503_depthLimit hc hr hd]; exact h
          · rw [subdivAux_503_subdivide hc hr hd]
            simp only []
            rw [cacheGet_cons]
            split
            · rename_i heq
              have heq2 : (fetchLabel cellId, month) = k := heq
              rw [← heq2, hc] at h
              simp at h
            · exact foldl_quadStep_cachePres (fun cid gg stx kk vv hh =>
                ih (depth + 1) cid gg stx kk vv hh) _ _ k v h
        · by_cases h200 : code = 200
          · subst h200
            rw [subdivAux_success hc hr]
            rw [cacheGet_cons]
            split
            · rename_i heq
              have heq2 : (fetchLabel cellId, month) = k := heq
              rw [← heq2, hc] at h
              simp at h
            · exact h
          · rw [subdivAux_otherStatus hc hr h503 h200]; exact h

/-! ### Network call accounting -/

/-- A call entry is a leaf query when its frame did not subdivide afterwards:
every response other than 503, and a 503 received at or beyond the depth
limit. -/
def isLeafCall (e : CallEntry) : Bool :=
  match e.resp with
  | NetResp.status 503 _ => decide (MAX_GRID_DEPTH ≤ e.depth)
  | _ => true

/-- `CallsExt c c' B lo hi`: the call log grew from `c` to `c'` by appending
entries, at most `B` of which are leaf queries, all with depth in
`[lo, hi]`. -/
def CallsExt (c c' : List CallEntry) (B lo hi : ℕ) : Prop :=
  ∃ Δ, c' = c ++ Δ ∧ (Δ.filter isLeafCall).length ≤ B ∧
    ∀ e ∈ Δ, lo ≤ e.depth ∧ e.depth ≤ hi

theorem callsExt_refl (c : List CallEntry) (B lo hi : ℕ) :
    CallsExt c c B lo hi :=
  ⟨[], by simp, by simp, by simp⟩

theorem callsExt_trans {c c' c'' : List CallEntry} {B1 B2 lo hi : ℕ}
    (h1 : CallsExt c c' B1 lo hi) (h2 : CallsExt c' c'' B2 lo hi) :
    CallsExt c c'' (B1 + B2) lo hi := by
  obtain ⟨d1, e1, f1, g1⟩ := h1
  obtain ⟨d2, e2, f2, g2⟩ := h2
  refine ⟨d1 ++ d2, by rw [e2, e1, List.append_assoc], ?_, ?_⟩
  · rw [List.filter_append, List.length_append]
    omega
  · intro e he
    rcases List.mem_append.mp he with h | h
    · exact g1 e h
    · exact g2 e h

theorem callsExt_mono {c c' : List CallEntry} {B B' lo lo' hi hi' : ℕ}
    (h : CallsExt c c' B lo hi) (hB : B ≤ B') (hlo : lo' ≤ lo)
    (hhi : hi ≤ hi') : CallsExt c c' B' lo' hi' := by
  obtain ⟨d, e, f, g⟩ := h
  exact ⟨d, e, le_trans f hB, fun x hx =>
    ⟨le_trans hlo (g x hx).1, le_trans (g x hx).2 hhi⟩⟩

theorem callsExt_single {c : List CallEntry} {e : CallEntry} {lo hi : ℕ}
    (h1 : lo ≤ e.depth) (h2 : e.depth ≤ hi) :
    CallsExt c (c ++ [e]) 1 lo hi := by
  refine ⟨[e], rfl, ?_, ?_⟩
  · by_cases hl : isLeafCall e <;> simp [hl]
  · intro x hx
    rcases List.mem_singleton.mp hx with rfl
    exact ⟨h1, h2⟩

theorem callsExt_single_nonleaf {c : List CallEntry} {e : CallEntry}
    {lo hi : ℕ} (hl : isLeafCall e = false) (h1 : lo ≤ e.depth)
    (h2 : e.depth ≤ hi) : CallsExt c (c ++ [e]) 0 lo hi := by
  refine ⟨[e], rfl, by simp [hl], ?_⟩
  intro x hx
  rcases List.mem_singleton.mp hx with rfl
  exact ⟨h1, h2⟩

theorem callsExt_single_le {c : List CallEntry} {d : ℕ} {p m : String}
    {r : NetResp} {B lo hi : ℕ} (hB : 1 ≤ B) (h1 : lo ≤ d) (h2 : d ≤ hi) :
    CallsExt c (c ++ [⟨d, p, m, r⟩]) B lo hi :=
  callsExt_mono (callsExt_single h1 h2) hB (le_refl _) (le_refl _)

theorem callsExt_single_nonleaf_le {c : List CallEntry} {d : ℕ}
    {p m : String} {r : NetResp} {B lo hi : ℕ}
    (hl : isLeafCall ⟨d, p, m, r⟩ = false) (h1 : lo ≤ d) (h2 : d ≤ hi) :
    CallsExt c (c ++ [⟨d, p, m, r⟩]) B lo hi :=
  callsExt_mono (callsExt_single_nonleaf hl h1 h2) (Nat.zero_le _)
    (le_refl _) (le_refl _)

/-- Folding the quadrant loop over `l` adds at most `l.length * B` leaf
queries when each child fetch adds at most `B`. -/
theorem foldl_quadStep_calls {G : Type} {ops : GeomOps G}
    {fmt : ℚ → String} {net : String → String → NetResp} {month : String}
    {gas depth : ℕ} {cellId : String} {geom : G} {B lo hi : ℕ}
    (IH : ∀ cid g st, CallsExt st.calls
      (fetchSubdivAux ops fmt net month gas (depth + 1) cid g st).2.calls
      B lo hi) :
    ∀ (l : List (Box × String))
      (a : List Crime × List (String × String) × FetchState),
      CallsExt a.2.2.calls
        ((l.foldl (quadStep ops fmt net month gas depth cellId geom)
          a).2.2.calls) (l.length * B) lo hi := by
  intro l
  induction l with
  | nil => intro a; simpa using callsExt_refl _ 0 lo hi
  | cons q qs ihl =>
    intro a
    rw [List.foldl_cons]
    have hstep : CallsExt a.2.2.calls
        ((quadStep ops fmt net month gas depth cellId geom a q).2.2.calls)
        B lo hi := by
      dsimp only [quadStep]
      split
      · exact callsExt_refl _ B lo hi
      · dsimp only [childAccum]
        exact IH _ _ _
    have hrest := ihl (quadStep ops fmt net month gas depth cellId geom a q)
    have := callsExt_trans hstep hrest
    exact callsExt_mono this (by simp [List.length_cons]; ring_nf; omega)
      (le_refl _) (le_refl _)

/-- Main call-count bound: a fetch with depth budget `gas` starting at
`depth` performs at most `4 ^ gas` leaf queries, and all its network calls
happen at depths in `[depth, depth + gas]`. -/
theorem subdivAux_callsExt {G : Type} (ops : GeomOps G) (fmt : ℚ → String)
    (net : String → String → NetResp) (month : String) :
    ∀ (gas depth : ℕ) (cellId : String) (geom : G) (st : FetchState),
      CallsExt st.calls
        (fetchSubdivAux ops fmt net month gas depth cellId geom st).2.calls
        (4 ^ gas) depth (depth + gas) := by
  intro gas
  induction gas with
  | zero =>
    intro depth cellId geom st
    cases hc : cacheGet st.cache (fetchLabel cellId, month) with
    | some xs => rw [subdivAux_hit hc]; exact callsExt_refl _ _ _ _
    | none =>
      cases hr : net (queryPolyStr ops fmt geom) month with
      | reqError =>
        rw [subdivAux_reqError hc hr]
        exact callsExt_single_le (Nat.one_le_pow _ _ (by norm_num)) (by omega) (by omega)
      | status code body =>
        rcases eq_or_ne code 503 with h503 | h503
        · subst h503
          by_cases hd : MAX_GRID_DEPTH ≤ depth
          · rw [subdivAux_503_depthLimit hc hr hd]
            exact callsExt_single_le (Nat.one_le_pow _ _ (by norm_num)) (by omega) (by omega)
          · rw [subdivAux_503_gas0 hc hr]
            exact callsExt_single_le (Nat.one_le_pow _ _ (by norm_num)) (by omega) (by omega)
        · by_cases h200 : code = 200
          · subst h200
            rw [subdivAux_success hc hr]
            exact callsExt_single_le (Nat.one_le_pow _ _ (by norm_num)) (by omega) (by omega)
          · rw [subdivAux_otherStatus hc hr h503 h200]
            exact callsExt_single_le (Nat.one_le_pow _ _ (by norm_num)) (by omega) (by omega)
  | succ g ih =>
    intro depth cellId geom st
    cases hc : cacheGet st.cache (fetchLabel cellId, month) with
    | some xs => rw [subdivAux_hit hc]; exact callsExt_refl _ _ _ _
    | none =>
      cases hr : net (queryPolyStr ops fmt geom) month with
      | reqError =>
        rw [subdivAux_reqError hc hr]
        exact callsExt_single_le (Nat.one_le_pow _ _ (by norm_num)) (by omega) (by omega)
      | status code body =>
        rcases eq_or_ne code 503 with h503 | h503
        · subst h503
          by_cases hd : MAX_GRID_DEPTH ≤ depth
          · rw [subdivAux_503_depthLimit hc hr hd]
            exact callsExt_single_le (Nat.one_le_pow _ _ (by norm_num)) (by omega) (by omega)
          · rw [subdivAux_503_subdivide hc hr hd]
            simp only []
            have hstep1 : CallsExt st.calls
                (st.calls ++ [⟨depth, queryPolyStr ops fmt geom, month,
                  NetResp.status 503 body⟩]) 0 depth (depth + (g + 1)) := by
              apply callsExt_single_nonleaf_le
              · simp [isLeafCall, hd]
              · omega
              · omega
            have hfold := @foldl_quadStep_calls G ops fmt net month g depth
              cellId geom (4 ^ g) depth (depth + (g + 1))
              (fun cid gg stx => callsExt_mono
                (ih (depth + 1) cid gg stx) (le_refl _) (by omega) (by omega))
              (quadrantBoxes (ops.bounds geom))
              (([], [], { st with calls := st.calls ++
                [⟨depth, queryPolyStr ops fmt geom, month,
                  NetResp.status 503 body⟩] }) :
                List Crime × List (String × String) × FetchState)
            have hcomb := callsExt_trans hstep1 hfold
            refine callsExt_mono hcomb ?_ (le_refl _) (le_refl _)
            have h4 : (quadrantBoxes (ops.bounds geom)).length = 4 := by
              simp [quadrantBoxes]
            rw [h4, pow_succ]
            omega
        · by_cases h200 : code = 200
          · subst h200
            rw [subdivAux_success hc hr]
            exact callsExt_single_le (Nat.one_le_pow _ _ (by norm_num)) (by omega) (by omega)
          · rw [subdivAux_otherStatus hc hr h503 h200]
            exact callsExt_single_le (Nat.one_le_pow _ _ (by norm_num)) (by omega) (by omega)

/-! ### Deduplication facts -/

theorem dedupFrom_congr :
    ∀ (xs : List Crime) (s1 s2 : List (String × String)),
      (∀ k, k ∈ s1 ↔ k ∈ s2) → dedupFrom s1 xs = dedupFrom s2 xs := by
  intro xs
  induction xs with
  | nil => intro s1 s2 _; rfl
  | cons c cs ih =>
    intro s1 s2 h
    simp only [dedupFrom]
    by_cases hm : crimeKey c ∈ s1
    · rw [if_pos hm, if_pos ((h _).mp hm)]
      exact ih s1 s2 h
    · rw [if_neg hm, if_neg (fun hx => hm ((h _).mpr hx))]
      rw [ih (crimeKey c :: s1) (crimeKey c :: s2) (fun k => by simp [h k])]

theorem foldl_dedupStep_eq :
    ∀ (xs : List Crime) (acc : List Crime) (seen : List (String × String)),
      xs.foldl dedupStep (acc, seen) =
        (acc ++ dedupFrom seen xs,
         seen ++ (dedupFrom seen xs).map crimeKey) := by
  intro xs
  induction xs with
  | nil => intro acc seen; simp [dedupFrom]
  | cons c cs ih =>
    intro acc seen
    rw [List.foldl_cons]
    by_cases hm : crimeKey c ∈ seen
    · have hstep : dedupStep (acc, seen) c = (acc, seen) := by
        simp [dedupStep, hm]
      rw [hstep, ih, dedupFrom, if_pos hm]
    · have hstep : dedupStep (acc, seen) c =
          (acc ++ [c], seen ++ [crimeKey c]) := by
        simp [dedupStep, hm]
      rw [hstep, ih]
      have hcg : dedupFrom (seen ++ [crimeKey c]) cs =
          dedupFrom (crimeKey c :: seen) cs :=
        dedupFrom_congr cs _ _ (fun k => by simp; tauto)
      rw [hcg, dedupFrom, if_neg hm]
      simp

theorem mergeChildLists_eq_dedupFrom (children : List (List Crime)) :
    mergeChildLists children = dedupFrom [] children.flatten := by
  unfold mergeChildLists
  rw [← List.foldl_flatten, foldl_dedupStep_eq]
  simp

/-- The keys surviving deduplication are pairwise distinct and disjoint
from `seen`. -/
theorem dedupFrom_keys_nodup :
    ∀ (xs : List Crime) (seen : List (String × String)),
      ((dedupFrom seen xs).map crimeKey).Nodup ∧
      ∀ k ∈ (dedupFrom seen xs).map crimeKey, k ∉ seen := by
  intro xs
  induction xs with
  | nil => intro seen; simp [dedupFrom]
  | cons c cs ih =>
    intro seen
    rw [dedupFrom]
    by_cases hm : crimeKey c ∈ seen
    · rw [if_pos hm]; exact ih seen
    · rw [if_neg hm]
      obtain ⟨hnd, hdisj⟩ := ih (crimeKey c :: seen)
      refine ⟨?_, ?_⟩
      · simp only [List.map_cons, List.nodup_cons]
        exact ⟨fun hx => (hdisj _ hx) (List.mem_cons_self _ _), hnd⟩
      · intro k hk
        rcases List.mem_cons.mp hk with rfl | hk2
        · exact hm
        · exact fun hks => (hdisj k hk2) (List.mem_cons_of_mem _ hks)

/-- The record kept for each key is the first-seen occurrence: `find?` on
the deduplicated list agrees with `find?` on the raw list. -/
theorem dedupFrom_find? :
    ∀ (xs : List Crime) (seen : List (String × String)) (k : String × String),
      k ∉ seen →
      (dedupFrom seen xs).find? (fun c => decide (crimeKey c = k)) =
        xs.find? (fun c => decide (crimeKey c = k)) := by
  intro xs
  induction xs with
  | nil => intro seen k _; rfl
  | cons c cs ih =>
    intro seen k hk
    rw [dedupFrom]
    by_cases hm : crimeKey c ∈ seen
    · rw [if_pos hm]
      have hne : crimeKey c ≠ k := fun he => hk (he ▸ hm)
      rw [List.find?_cons_of_neg _ (by simp [hne]), ih seen k hk]
    · rw [if_neg hm]
      by_cases hek : crimeKey c = k
      · rw [List.find?_cons_of_pos _ (by simp [hek]),
          List.find?_cons_of_pos _ (by simp [hek])]
      · rw [List.find?_cons_of_neg _ (by simp [hek]),
          List.find?_cons_of_neg _ (by simp [hek])]
        exact ih _ k (by
          simp only [List.mem_cons]
          push_neg
          exact ⟨fun h => hek h.symm, hk⟩)

/-- When all keys are distinct and unseen, deduplication keeps everything. -/
theorem dedupFrom_of_nodup :
    ∀ (xs : List Crime) (seen : List (String × String)),
      (xs.map crimeKey).Nodup → (∀ c ∈ xs, crimeKey c ∉ seen) →
      dedupFrom seen xs = xs := by
  intro xs
  induction xs with
  | nil => intro seen _ _; rfl
  | cons c cs ih =>
    intro seen hnd hdisj
    rw [dedupFrom, if_neg (hdisj c (List.mem_cons_self _ _))]
    simp only [List.map_cons, List.nodup_cons] at hnd
    rw [ih (crimeKey c :: seen) hnd.2]
    intro x hx
    simp only [List.mem_cons]
    push_neg
    refine ⟨?_, hdisj x (List.mem_cons_of_mem _ hx)⟩
    intro he
    exact hnd.1 (he ▸ List.mem_map_of_mem crimeKey hx)

/-- A child that contributes an empty list leaves the merge untouched. -/
theorem mergeChildLists_empty_child (as bs : List (List Crime)) :
    mergeChildLists (as ++ [] :: bs) = mergeChildLists (as ++ bs) := by
  unfold mergeChildLists
  rw [List.foldl_append, List.foldl_append, List.foldl_cons]
  rfl

/-! ### Simplification facts -/

theorem simplifyToNPoints_within {G : Type} (ops : GeomOps G) (geom : G)
    (maxPoints : ℕ) (h : (ops.exteriorCoords geom).length ≤ maxPoints) :
    simplifyToNPoints ops geom maxPoints = (ops.exteriorCoords geom).dropLast := by
  unfold simplifyToNPoints
  rw [if_pos h]

/-- If some tolerance in the remaining doubling schedule brings the ring
within budget, the loop stops at a geometry whose ring is within budget. -/
theorem simplifyLoop_reaches {G : Type} (ops : GeomOps G) (geom : G)
    (maxPoints : ℕ) :
    ∀ (fuel : ℕ) (tol : ℚ) (s0 : G),
      (∃ j < fuel,
        (ops.exteriorCoords (ops.simplify geom (tol * 2 ^ j))).length ≤ maxPoints) →
      (ops.exteriorCoords (simplifyLoop ops geom maxPoints fuel tol s0)).length ≤
        maxPoints := by
  intro fuel
  induction fuel with
  | zero => intro tol s0 h; obtain ⟨j, hj, _⟩ := h; omega
  | succ f ih =>
    intro tol s0 h
    rw [simplifyLoop]
    by_cases hcur : (ops.exteriorCoords (ops.simplify geom tol)).length ≤ maxPoints
    · rw [if_pos hcur]; exact hcur
    · rw [if_neg hcur]
      apply ih
      obtain ⟨j, hj, hle⟩ := h
      cases j with
      | zero =>
        exfalso
        rw [pow_zero, mul_one] at hle
        exact hcur hle
      | succ i =>
        refine ⟨i, by omega, ?_⟩
        have : tol * 2 * 2 ^ i = tol * 2 ^ (i + 1) := by ring
        rw [this]
        exact hle

/-! ### Containment counting -/

theorem countParkingElements_eq_filter {G : Type} (ops : GeomOps G)
    (geom : G) (elements : List OsmElement) :
    countParkingElements ops geom elements =
      (elements.filter (fun e =>
        match elementToPoint e with
        | some p => ops.containsPt geom p
        | none => false)).length := by
  have aux : ∀ (l : List OsmElement) (n : ℕ),
      l.foldl (fun count elem =>
        match elementToPoint elem with
        | some pt => if ops.containsPt geom pt then count + 1 else count
        | none => count) n =
      n + (l.filter (fun e =>
        match elementToPoint e with
        | some p => ops.containsPt geom p
        | none => false)).length := by
    intro l
    induction l with
    | nil => intro n; simp
    | cons e es ih =>
      intro n
      rw [List.foldl_cons, List.filter_cons]
      cases hpt : elementToPoint e with
      | none =>
        simp only [hpt]
        rw [ih n]
        simp
      | some p =>
        simp only [hpt]
        by_cases hin : ops.containsPt geom p
        · simp only [hin, if_true]
          rw [ih (n + 1)]
          simp only [if_pos rfl, List.length_cons]
          omega
        · simp only [hin, Bool.false_eq_true, if_false]
          rw [ih n]
  unfold countParkingElements
  rw [aux elements 0]
  omega

/-! ### Wire-string facts -/

theorem intercalate_go_spec (s : String) :
    ∀ (l : List String) (acc b : String),
      String.intercalate.go acc s (b :: l) =
        acc ++ s ++ String.intercalate.go b s l := by
  intro l
  induction l with
  | nil => intro acc b; simp [String.intercalate.go]
  | cons d ds ih =>
    intro acc b
    rw [String.intercalate.go, ih (acc ++ s ++ b) d, ih b d]
    simp [String.append_assoc]

theorem coordsToApiString_nil (fmt : ℚ → String) :
    coordsToApiString fmt [] = "" := rfl

theorem coordsToApiString_single (fmt : ℚ → String) (lng lat : ℚ) :
    coordsToApiString fmt [(lng, lat)] = fmt lat ++ "," ++ fmt lng := by
  unfold coordsToApiString
  simp only [List.map_cons, List.map_nil, String.intercalate]
  simp [String.intercalate.go, String.append_assoc]

theorem coordsToApiString_cons (fmt : ℚ → String) (lng lat : ℚ)
    (c : Coord) (cs : List Coord) :
    coordsToApiString fmt ((lng, lat) :: c :: cs) =
      fmt lat ++ "," ++ fmt lng ++ ":" ++ coordsToApiString fmt (c :: cs) := by
  unfold coordsToApiString
  simp only [List.map_cons, String.intercalate]
  rw [intercalate_go_spec]

/-! ### Claim theorems -/

/-- C7: the containment filter keeps exactly those candidates whose
representative point (node coordinates, or a way's center) exists and lies
strictly inside the region polygon; candidates without a derivable point
are dropped, and the returned count is the number of surviving
candidates. -/
theorem C7_containment_filter {G : Type} (ops : GeomOps G) (geom : G)
    (elements : List OsmElement) :
    countParkingElements ops geom elements =
      (elements.filter (fun e =>
        match elementToPoint e with
        | some p => ops.containsPt geom p
        | none => false)).length :=
  countParkingElements_eq_filter ops geom elements

/-- C4: merged sibling results contain at most one record per identity key;
the representative kept for each key is the first-seen occurrence in child
order; when no identities overlap the merge keeps everything — in
particular children of sizes 3, 0, 5, 2 with distinct identities merge to
exactly 10 features. -/
theorem C4_merge_dedup :
    (∀ children : List (List Crime),
      ((mergeChildLists children).map crimeKey).Nodup) ∧
    (∀ (children : List (List Crime)) (k : String × String),
      (mergeChildLists children).find? (fun c => decide (crimeKey c = k)) =
        children.flatten.find? (fun c => decide (crimeKey c = k))) ∧
    (∀ children : List (List Crime),
      (children.flatten.map crimeKey).Nodup →
        mergeChildLists children = children.flatten) ∧
    (mergeChildLists [[demoC 0, demoC 1, demoC 2], [],
      [demoC 3, demoC 4, demoC 5, demoC 6, demoC 7],
      [demoC 8, demoC 9]]).length = 10 := by
  refine ⟨?_, ?_, ?_, ?_⟩
  · intro children
    rw [mergeChildLists_eq_dedupFrom]
    exact (dedupFrom_keys_nodup children.flatten []).1
  · intro children k
    rw [mergeChildLists_eq_dedupFrom]
    exact dedupFrom_find? children.flatten [] k (by simp)
  · intro children h
    rw [mergeChildLists_eq_dedupFrom]
    exact dedupFrom_of_nodup children.flatten [] h (by simp)
  · decide

/-- C4 witness: the no-overlap clause applied to the concrete 3/0/5/2
scenario. -/
theorem C4_merge_dedup_witness :
    ([[demoC 0, demoC 1, demoC 2], [],
      [demoC 3, demoC 4, demoC 5, demoC 6, demoC 7],
      [demoC 8, demoC 9]].flatten.map crimeKey).Nodup ∧
    mergeChildLists [[demoC 0, demoC 1, demoC 2], [],
      [demoC 3, demoC 4, demoC 5, demoC 6, demoC 7],
      [demoC 8, demoC 9]] =
      [[demoC 0, demoC 1, demoC 2], [],
       [demoC 3, demoC 4, demoC 5, demoC 6, demoC 7],
       [demoC 8, demoC 9]].flatten :=
  ⟨by decide, C4_merge_dedup.2.2.1 _ (by decide)⟩

/-- C9 counterexample: encoding the empty ring does not fail — the encoder
is total and returns the empty string. -/
theorem C9_encoder_cex : coordsToApiString fmt0 [] = "" := rfl

/-- C9 (amended): the encoder is a pure total function; the empty ring
yields the empty string (not an error), and every non-empty ring of stored
`(lng, lat)` pairs yields the colon-delimited wire string with each pair
inverted to `lat,lng` order. -/
theorem C9_encoder_amended (fmt : ℚ → String) :
    coordsToApiString fmt [] = "" ∧
    (∀ lng lat : ℚ,
      coordsToApiString fmt [(lng, lat)] = fmt lat ++ "," ++ fmt lng) ∧
    (∀ (lng lat : ℚ) (c : Coord) (cs : List Coord),
      coordsToApiString fmt ((lng, lat) :: c :: cs) =
        fmt lat ++ "," ++ fmt lng ++ ":" ++ coordsToApiString fmt (c :: cs)) :=
  ⟨coordsToApiString_nil fmt,
   fun lng lat => coordsToApiString_single fmt lng lat,
   fun lng lat c cs => coordsToApiString_cons fmt lng lat c cs⟩

/-- C8 counterexample: a 27-vertex ring under a geometry whose
topology-preserving simplification cannot reduce it (as the interface
permits) blows the 25-vertex budget: the result has 26 vertices. -/
theorem C8_simplify_budget_cex :
    MAX_POLY_POINTS < (simplifyToNPoints ringOps ring27 MAX_POLY_POINTS).length := by
  decide

/-- C8 (amended): the simplifier stays within the vertex budget whenever
the input ring is already within budget, or some tolerance of the 30-step
doubling schedule brings the simplified ring within budget; when neither
holds it returns the final attempt, which may exceed the budget. -/
theorem C8_simplify_budget_amended {G : Type} (ops : GeomOps G) (geom : G)
    (maxPoints : ℕ) :
    ((ops.exteriorCoords geom).length ≤ maxPoints →
      (simplifyToNPoints ops geom maxPoints).length ≤ maxPoints) ∧
    ((∃ j, j < 30 ∧
        (ops.exteriorCoords (ops.simplify geom ((1 / 10000) * 2 ^ j))).length ≤
          maxPoints) →
      (simplifyToNPoints ops geom maxPoints).length ≤ maxPoints) := by
  constructor
  · intro h
    rw [simplifyToNPoints_within ops geom maxPoints h, List.length_dropLast]
    omega
  · intro h
    by_cases hw : (ops.exteriorCoords geom).length ≤ maxPoints
    · rw [simplifyToNPoints_within ops geom maxPoints hw, List.length_dropLast]
      omega
    · unfold simplifyToNPoints
      rw [if_neg hw, List.length_dropLast]
      have hb := simplifyLoop_reaches ops geom maxPoints 30 (1 / 10000) geom
        (by obtain ⟨j, hj, hle⟩ := h; exact ⟨j, hj, hle⟩)
      omega

/-- C8 witness: a 4-vertex ring is within budget and the simplifier
respects the budget on it. -/
theorem C8_simplify_budget_witness :
    (ringOps.exteriorCoords ring4).length ≤ MAX_POLY_POINTS ∧
    (simplifyToNPoints ringOps ring4 MAX_POLY_POINTS).length ≤ MAX_POLY_POINTS :=
  ⟨by decide, (C8_simplify_budget_amended ringOps ring4 MAX_POLY_POINTS).1 (by decide)⟩

/-- C1: on a capacity-exceeded response below the depth limit, the fetch
splits the region's bounding box at the midpoints of both axes into the
NW/NE/SW/SE quadrant boxes, intersects each with the region, skips empty
intersections (they are neither queried nor cached), recurses into each
surviving piece at `depth+1` with the label extended by the quadrant
suffix, merges the child results, and caches the merged payload under the
parent's `(label, month)` key. -/
theorem C1_subdivision_step {G : Type} (ops : GeomOps G) (fmt : ℚ → String)
    (net : String → String → NetResp) (geom : G) (month : String)
    (depth : ℕ) (cellId : String) (st : FetchState) (body : List Crime)
    (hmiss : cacheGet st.cache (fetchLabel cellId, month) = none)
    (hresp : net (queryPolyStr ops fmt geom) month = NetResp.status 503 body)
    (hdepth : depth < MAX_GRID_DEPTH) :
    fetchWithSubdivision ops fmt net geom month depth cellId st =
      subdivideMerge ops fmt net geom month depth cellId
        { st with calls := st.calls ++
          [⟨depth, queryPolyStr ops fmt geom, month, NetResp.status 503 body⟩] } ∧
    cacheGet (fetchWithSubdivision ops fmt net geom month depth
        cellId st).2.cache (fetchLabel cellId, month) =
      some (fetchWithSubdivision ops fmt net geom month depth cellId st).1 := by
  have hgas : MAX_GRID_DEPTH - depth = (MAX_GRID_DEPTH - (depth + 1)) + 1 := by
    omega
  constructor
  · unfold fetchWithSubdivision
    rw [hgas, subdivAux_503_subdivide hmiss hresp (by omega)]
    unfold subdivideMerge quadStep fetchWithSubdivision
    rfl
  · unfold fetchWithSubdivision
    rw [hgas, subdivAux_503_subdivide hmiss hresp (by omega)]
    simp [cacheGet_cons]

/-- C1 witness: a concrete capacity-exceeded run at depth 0 ends with the
merged payload cached under the parent key. -/
theorem C1_subdivision_step_witness :
    0 < MAX_GRID_DEPTH ∧
    cacheGet (fetchWithSubdivision ringOps fmt0 netBusy ring4 "2025-01" 0
        "" st0).2.cache (fetchLabel "", "2025-01") =
      some (fetchWithSubdivision ringOps fmt0 netBusy ring4 "2025-01" 0
        "" st0).1 :=
  ⟨by decide, (C1_subdivision_step ringOps fmt0 netBusy ring4 "2025-01" 0 ""
    st0 [] (by decide) rfl (by decide)).2⟩

/-- C2: one top-level fetch performs at most `4 ^ MAX_GRID_DEPTH` leaf
queries and never issues a call below depth `MAX_GRID_DEPTH`; a
capacity-exceeded response at depth `≥ MAX_GRID_DEPTH` yields the empty
result after that single query, with no recursion. -/
theorem C2_depth_bound {G : Type} (ops : GeomOps G) (fmt : ℚ → String)
    (net : String → String → NetResp) (month : String) :
    (∀ (geom : G) (st : FetchState),
      ∃ Δ, (fetchBoroughMonth ops fmt net geom month st).2.calls =
          st.calls ++ Δ ∧
        (Δ.filter isLeafCall).length ≤ 4 ^ MAX_GRID_DEPTH ∧
        ∀ e ∈ Δ, e.depth ≤ MAX_GRID_DEPTH) ∧
    (∀ (depth : ℕ) (cellId : String) (geom : G) (st : FetchState)
        (body : List Crime),
      MAX_GRID_DEPTH ≤ depth →
      cacheGet st.cache (fetchLabel cellId, month) = none →
      net (queryPolyStr ops fmt geom) month = NetResp.status 503 body →
      fetchWithSubdivision ops fmt net geom month depth cellId st =
        ([], { st with calls := st.calls ++
          [⟨depth, queryPolyStr ops fmt geom, month,
            NetResp.status 503 body⟩] })) := by
  constructor
  · intro geom st
    obtain ⟨d, h1, h2, h3⟩ :=
      subdivAux_callsExt ops fmt net month MAX_GRID_DEPTH 0 "" geom st
    exact ⟨d, h1, h2, fun e he => by have := (h3 e he).2; omega⟩
  · intro depth cellId geom st body hd hmiss hr
    unfold fetchWithSubdivision
    exact subdivAux_503_depthLimit hmiss hr hd

/-- C2 witness: the leaf-query bound on a concrete all-503 run, and the
depth-limit cutoff at depth 2. -/
theorem C2_depth_bound_witness :
    (∃ d, (fetchBoroughMonth ringOps fmt0 netBusy ring4 "2025-01"
        st0).2.calls = st0.calls ++ d ∧
      (d.filter isLeafCall).length ≤ 4 ^ MAX_GRID_DEPTH ∧
      ∀ e ∈ d, e.depth ≤ MAX_GRID_DEPTH) ∧
    fetchWithSubdivision ringOps fmt0 netBusy ring4 "2025-01" 2 "NW_NW" st0 =
      ([], { st0 with calls := st0.calls ++
        [⟨2, queryPolyStr ringOps fmt0 ring4, "2025-01",
          NetResp.status 503 []⟩] }) :=
  ⟨(C2_depth_bound ringOps fmt0 netBusy "2025-01").1 ring4 st0,
   (C2_depth_bound ringOps fmt0 netBusy "2025-01").2 2 "NW_NW" ring4 st0 []
     (by decide) (by decide) rfl⟩

/-- C3 counterexample: when the first fetch's top-level query fails with a
non-capacity error, nothing is cached, so the second identical fetch
performs another network call — the log grows from 1 to 2 entries instead
of staying at 1. -/
theorem C3_idempotence_cex :
    (fetchBoroughMonth ringOps fmt0 netFail ring4 "2025-01"
      st0).2.calls.length = 1 ∧
    (fetchBoroughMonth ringOps fmt0 netFail ring4 "2025-01"
      (fetchBoroughMonth ringOps fmt0 netFail ring4 "2025-01"
        st0).2).2.calls.length = 2 := by
  constructor <;> decide

/-- C3 (amended): a second fetch of the same (region, month) with the cache
state left by the first returns the identical result and performs zero
additional network calls, provided the first fetch left a cache entry for
the top-level `(label, month)` key — which holds in every case except when
the top-level query itself ended in a non-capacity failure (or depth
cutoff); a cache hit is terminal and returned directly. -/
theorem C3_idempotence_amended {G : Type} (ops : GeomOps G)
    (fmt : ℚ → String) (net : String → String → NetResp) (geom : G)
    (month : String) (st : FetchState)
    (hcached : cacheGet (fetchBoroughMonth ops fmt net geom month
        st).2.cache (fetchLabel "", month) ≠ none) :
    fetchBoroughMonth ops fmt net geom month
        (fetchBoroughMonth ops fmt net geom month st).2 =
      fetchBoroughMonth ops fmt net geom month st := by
  rcases subdivAux_selfCache ops fmt net month (MAX_GRID_DEPTH - 0) 0 ""
      geom st with h | ⟨_, h2⟩
  · unfold fetchBoroughMonth fetchWithSubdivision
    rw [subdivAux_hit h]
  · exact absurd h2 hcached

/-- C3 witness: with an all-200 endpoint the first fetch caches its key and
the second fetch is the identity on result and state. -/
theorem C3_idempotence_witness :
    cacheGet (fetchBoroughMonth ringOps fmt0 netOk ring4 "2025-01"
        st0).2.cache (fetchLabel "", "2025-01") ≠ none ∧
    fetchBoroughMonth ringOps fmt0 netOk ring4 "2025-01"
        (fetchBoroughMonth ringOps fmt0 netOk ring4 "2025-01" st0).2 =
      fetchBoroughMonth ringOps fmt0 netOk ring4 "2025-01" st0 :=
  ⟨by decide,
   C3_idempotence_amended ringOps fmt0 netOk ring4 "2025-01" st0 (by decide)⟩

/-- C5: fetches never disturb cache entries that existed when they started
(entries are created once, under keys absent at write time, and are
read-only thereafter), and the failure paths — non-capacity failure, and
capacity-exceeded at the depth limit — write nothing at all. -/
theorem C5_cache_write_once {G : Type} (ops : GeomOps G) (fmt : ℚ → String)
    (net : String → String → NetResp) (geom : G) (month : String)
    (depth : ℕ) (cellId : String) (st : FetchState) :
    (∀ (k : String × String) (v : List Crime),
      cacheGet st.cache k = some v →
      cacheGet (fetchWithSubdivision ops fmt net geom month depth
        cellId st).2.cache k = some v) ∧
    (cacheGet st.cache (fetchLabel cellId, month) = none →
      isOtherFailure (net (queryPolyStr ops fmt geom) month) = true →
      (fetchWithSubdivision ops fmt net geom month depth
        cellId st).2.cache = st.cache) ∧
    (∀ body, cacheGet st.cache (fetchLabel cellId, month) = none →
      net (queryPolyStr ops fmt geom) month = NetResp.status 503 body →
      MAX_GRID_DEPTH ≤ depth →
      (fetchWithSubdivision ops fmt net geom month depth
        cellId st).2.cache = st.cache) := by
  refine ⟨?_, ?_, ?_⟩
  · intro k v h
    unfold fetchWithSubdivision
    exact subdivAux_cachePreserve ops fmt net month _ depth cellId geom st k v h
  · intro hmiss hfail
    unfold fetchWithSubdivision
    cases hr : net (queryPolyStr ops fmt geom) month with
    | reqError => rw [subdivAux_reqError hmiss hr]
    | status code body =>
      rw [hr] at hfail
      simp only [isOtherFailure, Bool.and_eq_true, decide_eq_true_eq] at hfail
      rw [subdivAux_otherStatus hmiss hr hfail.1 hfail.2]
  · intro body hmiss hr hd
    unfold fetchWithSubdivision
    rw [subdivAux_503_depthLimit hmiss hr hd]

/-- C5 witness: a pre-existing entry survives a failing fetch untouched,
and that fetch writes nothing. -/
theorem C5_cache_write_once_witness :
    cacheGet stSeed.cache ("seed", "2025-01") = some [demoC 0] ∧
    cacheGet (fetchWithSubdivision ringOps fmt0 netFail ring4 "2025-01" 0
        "" stSeed).2.cache ("seed", "2025-01") = some [demoC 0] ∧
    (fetchWithSubdivision ringOps fmt0 netFail ring4 "2025-01" 0
        "" stSeed).2.cache = stSeed.cache :=
  ⟨by decide,
   (C5_cache_write_once ringOps fmt0 netFail ring4 "2025-01" 0 ""
     stSeed).1 _ _ (by decide),
   (C5_cache_write_once ringOps fmt0 netFail ring4 "2025-01" 0 ""
     stSeed).2.1 (by decide) (by decide)⟩

/-- C6: a sub-region whose query ends in a non-capacity failure (request
exception or non-2xx, non-503 status) yields the empty result after exactly
one network attempt — no retry, no cache write — and an empty child
contributes nothing to the sibling merge. -/
theorem C6_failure_absorbed {G : Type} (ops : GeomOps G) (fmt : ℚ → String)
    (net : String → String → NetResp) (geom : G) (month : String)
    (depth : ℕ) (cellId : String) (st : FetchState)
    (hmiss : cacheGet st.cache (fetchLabel cellId, month) = none)
    (hfail : isOtherFailure (net (queryPolyStr ops fmt geom) month) = true) :
    fetchWithSubdivision ops fmt net geom month depth cellId st =
      ([], { st with calls := st.calls ++
        [⟨depth, queryPolyStr ops fmt geom, month,
          net (queryPolyStr ops fmt geom) month⟩] }) ∧
    (∀ as bs : List (List Crime),
      mergeChildLists (as ++ [] :: bs) = mergeChildLists (as ++ bs)) := by
  constructor
  · unfold fetchWithSubdivision
    cases hr : net (queryPolyStr ops fmt geom) month with
    | reqError => rw [subdivAux_reqError hmiss hr]
    | status code body =>
      rw [hr] at hfail
      simp only [isOtherFailure, Bool.and_eq_true, decide_eq_true_eq] at hfail
      rw [subdivAux_otherStatus hmiss hr hfail.1 hfail.2]
  · intro as bs
    exact mergeChildLists_empty_child as bs

/-- C6 witness: a concrete HTTP-500 cell returns empty after one attempt. -/
theorem C6_failure_absorbed_witness :
    isOtherFailure (netFail (queryPolyStr ringOps fmt0 ring4) "2025-01") =
      true ∧
    fetchWithSubdivision ringOps fmt0 netFail ring4 "2025-01" 0 "" st0 =
      ([], { st0 with calls := st0.calls ++
        [⟨0, queryPolyStr ringOps fmt0 ring4, "2025-01",
          netFail (queryPolyStr ringOps fmt0 ring4) "2025-01"⟩] }) :=
  ⟨by decide,
   (C6_failure_absorbed ringOps fmt0 netFail ring4 "2025-01" 0 "" st0
     (by decide) (by decide)).1⟩

/-- C10: a fetch that succeeds without subdivision returns the decoded
payload verbatim — a cache hit returns the cached list unchanged, and a
direct 200 success returns (and caches) the response body unchanged — so
duplicate identity keys inside a single payload are preserved. -/
theorem C10_verbatim_payload {G : Type} (ops : GeomOps G) (fmt : ℚ → String)
    (net : String → String → NetResp) (geom : G) (month : String)
    (depth : ℕ) (cellId : String) (st : FetchState) (xs : List Crime) :
    (cacheGet st.cache (fetchLabel cellId, month) = some xs →
      fetchWithSubdivision ops fmt net geom month depth cellId st =
        (xs, st)) ∧
    (cacheGet st.cache (fetchLabel cellId, month) = none →
      net (queryPolyStr ops fmt geom) month = NetResp.status 200 xs →
      fetchWithSubdivision ops fmt net geom month depth cellId st =
        (xs, { cache := ((fetchLabel cellId, month), xs) :: st.cache,
               calls := st.calls ++
          [⟨depth, queryPolyStr ops fmt geom, month,
            NetResp.status 200 xs⟩] })) := by
  constructor
  · intro h
    unfold fetchWithSubdivision
    rw [subdivAux_hit h]
  · intro h1 h2
    unfold fetchWithSubdivision
    rw [subdivAux_success h1 h2]

/-- C10 witness: a cached payload with a duplicated identity key is
returned with the duplicate intact. -/
theorem C10_verbatim_payload_witness :
    cacheGet stDup.cache (fetchLabel "", "2025-01") =
      some [anonC 0, anonC 0] ∧
    fetchWithSubdivision ringOps fmt0 netOk ring4 "2025-01" 0 "" stDup =
      ([anonC 0, anonC 0], stDup) :=
  ⟨by decide,
   (C10_verbatim_payload ringOps fmt0 netOk ring4 "2025-01" 0 "" stDup
     [anonC 0, anonC 0]).1 (by decide)⟩

end BikeCrime
